import Mathlib

/-!
Shallow embedding of `src/resulta.ts`, a TypeScript Result library.

Modelling conventions:
* A TypeScript `Result<A, E>` is a plain record `{ status, value, err }`.
  We embed it as the structure `ResultS A E` below.  The TS fields `value`
  and `err` have nullable types (`A | null`, `E | null`); JS `null` is
  modelled as `Option.none`, so the fields become `Option A` / `Option E`.
  A TS call site may also pass `null` for the payload itself (e.g.
  `ok(null)` when `A` admits null), hence the constructors take `Option`.
* The status discriminant is the numeric constant from the source
  (`ResultStatus.ok = 1 <<< 0`, `ResultStatus.err = 1 <<< 1`).
* A thunk that can throw (`() => T`) is embedded as a function
  `Unit → Except (Option E) (Option A)`: calling it yields either a normal
  return value or a thrown value.  The thrown value is *unconstrained*
  (the TS `catch (e)` binds `unknown` and casts), so the error type
  parameter is free.
* Functions whose observable behaviour includes *how many times* they
  invoke a callback get an instrumented twin (`...Tr`) that transcribes
  the same control flow and additionally counts the syntactic call sites
  executed.
-/

namespace Resulta

/-- The numeric status tags from the source (`1 << 0` and `1 << 1`). -/
def ResultStatus.okTag : Nat := 1 <<< 0

def ResultStatus.errTag : Nat := 1 <<< 1

/-- Embedding of the record shape `{ status, value, err }` shared by
`Ok` and `Err` (interface `ResultCase` in the source).  `none` models
JS `null`. -/
structure ResultS (A E : Type) where
  status : Nat
  value : Option A
  err : Option E
  deriving Repr, DecidableEq

/-- `isOk`: `result.status === ResultStatus.ok`. -/
def isOk {A E : Type} (r : ResultS A E) : Bool :=
  r.status == ResultStatus.okTag

/-- `isErr`: `result.status === ResultStatus.err`. -/
def isErr {A E : Type} (r : ResultS A E) : Bool :=
  r.status == ResultStatus.errTag

/-- `ok(t)`: `{ value: t, status: ResultStatus.ok, err: null }`. -/
def ok {A E : Type} (t : Option A) : ResultS A E :=
  { value := t, status := ResultStatus.okTag, err := none }

/-- `err(e)`: `{ value: null, status: ResultStatus.err, err: e }`. -/
def err {A E : Type} (e : Option E) : ResultS A E :=
  { value := none, status := ResultStatus.errTag, err := e }

/-- A small universe of JavaScript runtime values, used to embed the
functions whose behaviour depends on runtime truthiness and
`instanceof Error` checks (`result`).  JS `null` stays at the `Option`
layer (`none`), so the universe itself has no null constructor. -/
inductive JSValue : Type
  | undef
  | boolV (b : Bool)
  | numV (n : Int)
  | strV (s : String)
  | errObj (msg : String)
  | plainObj
  deriving Repr, DecidableEq

/-- JS truthiness of a possibly-null value: `null`, `undefined`, `false`,
`0` and `""` are falsy; everything else in the universe is truthy. -/
def truthy : Option JSValue → Bool
  | none => false
  | some JSValue.undef => false
  | some (JSValue.boolV b) => b
  | some (JSValue.numV n) => n != 0
  | some (JSValue.strV s) => s != ""
  | some (JSValue.errObj _) => true
  | some JSValue.plainObj => true

/-- `value instanceof Error` for a possibly-null value. -/
def isErrorInstance : Option JSValue → Bool
  | some (JSValue.errObj _) => true
  | _ => false

/-- `result(value?)`: `Ok` if the value is truthy and not an `Error`
instance, otherwise `Err` carrying the value in the error slot.
`value? : A` means the argument may be absent (`undefined`, which is
`some JSValue.undef` here) and, when `A` admits it, `null` (`none`). -/
def result (value : Option JSValue) : ResultS JSValue JSValue :=
  let isError := isErrorInstance value
  if truthy value && !isError then
    ok value
  else
    err value

/-- `ofThrowable(throwable)`: runs the thunk inside `try`; a normal
return `v` becomes `ok(v)`, a thrown value `e` is caught and becomes
`err(e)`.  The result component records the value; the `Nat` component
counts how many times the thunk was invoked (the single call site in
the `try` block). -/
def ofThrowableTr {A E : Type} (throwable : Unit → Except (Option E) (Option A)) :
    ResultS A E × Nat :=
  match throwable () with
  | Except.ok v => (ok v, 1)
  | Except.error e => (err e, 1)

/-- `ofThrowable` without the instrumentation: just the returned Result. -/
def ofThrowable {A E : Type} (throwable : Unit → Except (Option E) (Option A)) :
    ResultS A E :=
  (ofThrowableTr throwable).1

/-- `ofPromise(thunk)`: awaits the promise produced by the single call
to `thunk`; fulfilment with `v` resolves to `ok(v)`, rejection with `e`
is caught and resolves to `err(e)`.  The promise is embedded by its
settled outcome.  The two `Nat` components count thunk invocations and
`await`s performed. -/
def ofPromiseTr {A E : Type} (thunk : Unit → Except (Option E) (Option A)) :
    ResultS A E × Nat × Nat :=
  match thunk () with
  | Except.ok v => (ok v, 1, 1)
  | Except.error e => (err e, 1, 1)

/-- `ofPromise` without the instrumentation: just the resolved Result. -/
def ofPromise {A E : Type} (thunk : Unit → Except (Option E) (Option A)) :
    ResultS A E :=
  (ofPromiseTr thunk).1

/-- `andThen(result, tx)`: `tx(result.value)` when `Ok`, otherwise the
original `Err` is returned unchanged (same object; re-expressed at the
new value type, its `value` field is `null` because the object is an
`Err`). -/
def andThen {A B E : Type} (r : ResultS A E) (tx : Option A → ResultS B E) :
    ResultS B E :=
  if isOk r then
    tx r.value
  else
    { status := r.status, value := none, err := r.err }

/-- Instrumented `andThen`: same control flow, also counts invocations
of `tx`. -/
def andThenTr {A B E : Type} (r : ResultS A E) (tx : Option A → ResultS B E) :
    ResultS B E × Nat :=
  if isOk r then
    (tx r.value, 1)
  else
    ({ status := r.status, value := none, err := r.err }, 0)

/-- A chain of `andThen` applications, left to right, accumulating the
total number of transform invocations. -/
def andThenChainTr {A E : Type} (r : ResultS A E) :
    List (Option A → ResultS A E) → ResultS A E × Nat
  | [] => (r, 0)
  | tx :: txs =>
    let step := andThenTr r tx
    let rest := andThenChainTr step.1 txs
    (rest.1, step.2 + rest.2)

/-- `map(result, tx)`: `ok(tx(result.value))` when `Ok`, otherwise the
original `Err` unchanged. -/
def map {A B E : Type} (r : ResultS A E) (tx : Option A → Option B) :
    ResultS B E :=
  if isOk r then
    ok (tx r.value)
  else
    { status := r.status, value := none, err := r.err }

/-- Instrumented `map`: same control flow, also counts invocations of
`tx`. -/
def mapTr {A B E : Type} (r : ResultS A E) (tx : Option A → Option B) :
    ResultS B E × Nat :=
  if isOk r then
    (ok (tx r.value), 1)
  else
    ({ status := r.status, value := none, err := r.err }, 0)

/-- `valueOr(result, fallback)`: the wrapped value when `Ok`, else the
fallback.  A total function: it never raises. -/
def valueOr {A E : Type} (r : ResultS A E) (fallback : Option A) : Option A :=
  if isOk r then
    r.value
  else
    fallback

/-- The exception class `ResultAccessErr extends Error` with its
`_tag` marker field and inherited `message`. -/
structure ResultAccessErr where
  tag : String
  message : String
  deriving Repr, DecidableEq

/-- `new ResultAccessErr(msg)`: the `_tag` field is always the literal
`"ResultAccessErr"`. -/
def mkResultAccessErr (message : String) : ResultAccessErr :=
  { tag := "ResultAccessErr", message := message }

/-- `valueExn(result)`: the wrapped value when `Ok`; otherwise throws
`new ResultAccessErr("Tried to access result value that is not ok")`.
The throw is embedded in the `Except` error channel, whose type is the
dedicated access-error kind, not the wrapped error type `E`. -/
def valueExn {A E : Type} (r : ResultS A E) : Except ResultAccessErr (Option A) :=
  if isOk r then
    Except.ok r.value
  else
    Except.error (mkResultAccessErr "Tried to access result value that is not ok")

/-- Writes a block of values at consecutive indices, mirroring the JS
loop body `values[i++] = result.value` (in-bounds index assignment on a
JS array is `List.set`). -/
def setAll {A : Type} (values : List (Option A)) (i : Nat) :
    List (Option A) → List (Option A)
  | [] => values
  | x :: xs => setAll (values.set i x) (i + 1) xs

/-- The `for (let result of results)` loop of `combine`, carrying the
pre-allocated `values` array and the write index `i`.  On the first
non-`Ok` element the loop returns that element (same object,
re-expressed at the array value type). -/
def combineLoop {A E : Type} (values : List (Option A)) (i : Nat) :
    List (ResultS A E) → ResultS (List (Option A)) E
  | [] => ok (some values)
  | r :: rest =>
    if isOk r then
      combineLoop (values.set i r.value) (i + 1) rest
    else
      { status := r.status, value := none, err := r.err }

/-- `combine(results)`: pre-allocates `new Array(results.length).fill(null)`
and runs the loop from index 0. -/
def combine {A E : Type} (results : List (ResultS A E)) :
    ResultS (List (Option A)) E :=
  combineLoop (List.replicate results.length none) 0 results

/-- `match(result, cases)`: `cases.Ok(result.value)` when `Ok`,
otherwise `cases.Err(result.err)`. -/
def matchR {A E U : Type} (r : ResultS A E)
    (okCase : Option A → U) (errCase : Option E → U) : U :=
  if isOk r then
    okCase r.value
  else
    errCase r.err

/-- Instrumented `match`: same control flow, also counts invocations of
each handler (`Ok` handler count, then `Err` handler count). -/
def matchTr {A E U : Type} (r : ResultS A E)
    (okCase : Option A → U) (errCase : Option E → U) : U × Nat × Nat :=
  if isOk r then
    (okCase r.value, 1, 0)
  else
    (errCase r.err, 0, 1)

/-- A Result is well formed when its status is one of the two tags the
library ever constructs. -/
def WF {A E : Type} (r : ResultS A E) : Prop :=
  r.status = ResultStatus.okTag ∨ r.status = ResultStatus.errTag

/-- Exactly one of the `value` / `err` fields is non-null. -/
def exactlyOnePopulated {A E : Type} (r : ResultS A E) : Prop :=
  (r.value ≠ none ∧ r.err = none) ∨ (r.value = none ∧ r.err ≠ none)

/-- At most one of the `value` / `err` fields is non-null. -/
def atMostOnePopulated {A E : Type} (r : ResultS A E) : Prop :=
  r.value = none ∨ r.err = none

/-! ### Basic lemmas about the constructors and discriminants -/

@[simp]
lemma okTag_eq : ResultStatus.okTag = 1 := by decide

@[simp]
lemma errTag_eq : ResultStatus.errTag = 2 := by decide

@[simp]
lemma status_ok {A E : Type} (t : Option A) : (ok t : ResultS A E).status = 1 := by
  simp [ok]

@[simp]
lemma value_ok {A E : Type} (t : Option A) : (ok t : ResultS A E).value = t := rfl

@[simp]
lemma err_ok {A E : Type} (t : Option A) : (ok t : ResultS A E).err = none := rfl

@[simp]
lemma status_err {A E : Type} (e : Option E) : (err e : ResultS A E).status = 2 := by
  simp [err]

@[simp]
lemma value_err {A E : Type} (e : Option E) : (err e : ResultS A E).value = none := rfl

@[simp]
lemma err_err {A E : Type} (e : Option E) : (err e : ResultS A E).err = e := rfl

@[simp]
lemma isOk_ok {A E : Type} (t : Option A) : isOk (ok t : ResultS A E) = true := by
  simp [isOk, ok]

@[simp]
lemma isErr_ok {A E : Type} (t : Option A) : isErr (ok t : ResultS A E) = false := by
  simp [isErr, ok]

@[simp]
lemma isOk_err {A E : Type} (e : Option E) : isOk (err e : ResultS A E) = false := by
  simp [isOk, err]

@[simp]
lemma isErr_err {A E : Type} (e : Option E) : isErr (err e : ResultS A E) = true := by
  simp [isErr, err]

lemma status_eq_of_isOk {A E : Type} {r : ResultS A E} (h : isOk r = true) :
    r.status = 1 := by
  simpa [isOk] using h

lemma status_eq_of_isErr {A E : Type} {r : ResultS A E} (h : isErr r = true) :
    r.status = 2 := by
  simpa [isErr] using h

lemma isOk_eq_false_of_isErr {A E : Type} {r : ResultS A E} (h : isErr r = true) :
    isOk r = false := by
  simp [isOk, status_eq_of_isErr h]

lemma isErr_eq_false_of_isOk {A E : Type} {r : ResultS A E} (h : isOk r = true) :
    isErr r = false := by
  simp [isErr, status_eq_of_isOk h]

lemma andThenTr_of_isErr {A B E : Type} {r : ResultS A E}
    (tx : Option A → ResultS B E) (h : isErr r = true) :
    andThenTr r tx = ({ status := r.status, value := none, err := r.err }, 0) := by
  simp [andThenTr, isOk_eq_false_of_isErr h]

lemma andThenChainTr_of_isErr {A E : Type} {r : ResultS A E}
    (txs : List (Option A → ResultS A E)) (h : isErr r = true) :
    (andThenChainTr r txs).2 = 0 ∧ (andThenChainTr r txs).1.err = r.err ∧
      (andThenChainTr r txs).1.status = r.status := by
  induction txs generalizing r with
  | nil => exact ⟨rfl, rfl, rfl⟩
  | cons tx txs ih =>
    have hstep := andThenTr_of_isErr (r := r) tx h
    have herr' : isErr ({ status := r.status, value := none, err := r.err } :
        ResultS A E) = true := by
      simpa [isErr] using status_eq_of_isErr h
    have hrest := ih herr'
    simp only [andThenChainTr, hstep]
    exact ⟨by simpa using hrest.1, hrest.2.1, hrest.2.2⟩

/-- C2: `andThen(r, f)` returns `f(r.value)` directly when `r` is `Ok`; when
`r` is `Err(e)` it returns that `Err` unchanged (same status and same error
value) without invoking `f`, and a whole chain of `andThen` steps over an
initial `Err` performs zero transform invocations while preserving the error
identity. -/
theorem andThen_spec {A B E : Type} :
    (∀ (r : ResultS A E) (tx : Option A → ResultS B E),
      isOk r = true → andThen r tx = tx r.value) ∧
    (∀ (r : ResultS A E) (tx : Option A → ResultS B E),
      isErr r = true →
        andThenTr r tx = ({ status := r.status, value := none, err := r.err }, 0) ∧
        (andThenTr r tx).1.err = r.err ∧ isErr (andThenTr r tx).1 = true) ∧
    (∀ (r : ResultS A E) (txs : List (Option A → ResultS A E)),
      isErr r = true →
        (andThenChainTr r txs).2 = 0 ∧ (andThenChainTr r txs).1.err = r.err ∧
          isErr (andThenChainTr r txs).1 = true) := by
  refine ⟨fun r tx h => by simp [andThen, h], fun r tx h => ?_, fun r txs h => ?_⟩
  · refine ⟨andThenTr_of_isErr tx h, ?_, ?_⟩
    · simp [andThenTr_of_isErr tx h]
    · simp [andThenTr_of_isErr tx h, isErr, status_eq_of_isErr h]
  · obtain ⟨h1, h2, h3⟩ := andThenChainTr_of_isErr txs h
    exact ⟨h1, h2, by simp [isErr, h3, status_eq_of_isErr h]⟩

/-- Witness for C2: a concrete two-step chain over an initial `Err`
performs zero transform invocations and preserves the error. -/
theorem andThen_spec_witness :
    (andThenChainTr (err (some "boom") : ResultS Nat String)
      [fun _ => ok (some 1), fun _ => ok (some 2)]).2 = 0 ∧
    (andThenChainTr (err (some "boom") : ResultS Nat String)
      [fun _ => ok (some 1), fun _ => ok (some 2)]).1.err = some "boom" ∧
    isErr (andThenChainTr (err (some "boom") : ResultS Nat String)
      [fun _ => ok (some 1), fun _ => ok (some 2)]).1 = true := by
  have h := (andThen_spec (A := Nat) (B := Nat) (E := String)).2.2
    (err (some "boom")) [fun _ => ok (some 1), fun _ => ok (some 2)]
    (by simp)
  simpa using h

/-- C3: `map(r, f)` equals `Ok(f(r.value))` when `r` is `Ok`; when `r` is
`Err(e)` it returns the `Err` unchanged (same status and error value) with
`f` never invoked; in all cases `f` is invoked at most once. -/
theorem map_spec {A B E : Type} :
    (∀ (r : ResultS A E) (tx : Option A → Option B),
      isOk r = true → map r tx = ok (tx r.value)) ∧
    (∀ (r : ResultS A E) (tx : Option A → Option B),
      isErr r = true →
        mapTr r tx = ({ status := r.status, value := none, err := r.err }, 0) ∧
        (mapTr r tx).1.err = r.err ∧ isErr (mapTr r tx).1 = true) ∧
    (∀ (r : ResultS A E) (tx : Option A → Option B), (mapTr r tx).2 ≤ 1) := by
  refine ⟨fun r tx h => by simp [map, h], fun r tx h => ?_, fun r tx => ?_⟩
  · have hfalse := isOk_eq_false_of_isErr h
    refine ⟨by simp [mapTr, hfalse], ?_, ?_⟩
    · simp [mapTr, hfalse]
    · simp [mapTr, hfalse, isErr, status_eq_of_isErr h]
  · by_cases h : isOk r = true
    · simp [mapTr, h]
    · simp [mapTr, h]

/-- Witness for C3: evaluating `map` on a concrete `Ok` and a concrete
`Err`. -/
theorem map_spec_witness :
    map (ok (some 3) : ResultS Nat String) (fun v => v.map (· + 1)) =
      ok (some 4) ∧
    (mapTr (err (some "e") : ResultS Nat String) (fun v => v)).2 = 0 := by
  constructor
  · have h := (map_spec (A := Nat) (B := Nat) (E := String)).1
      (ok (some 3)) (fun v => v.map (· + 1)) (by simp)
    simpa using h
  · have h := (map_spec (A := Nat) (B := Nat) (E := String)).2.1
      (err (some "e")) (fun v => v) (by simp)
    simp [h.1]

/-- C4: `valueOr(Ok(a), fallback) = a = valueExn(Ok(a))`; `valueOr(Err(e),
fallback) = fallback` (total, never raises); `valueExn(Err(e))` raises the
dedicated `ResultAccessErr` kind — independent of the wrapped error `e` —
carrying the fixed message `"Tried to access result value that is not ok"`
and the `_tag` marker `"ResultAccessErr"`. -/
theorem valueOr_valueExn_spec {A E : Type} :
    (∀ (a : Option A) (fallback : Option A),
      valueOr (ok a : ResultS A E) fallback = a ∧
      valueExn (ok a : ResultS A E) = Except.ok a) ∧
    (∀ (e : Option E) (fallback : Option A),
      valueOr (err e : ResultS A E) fallback = fallback ∧
      valueExn (err e : ResultS A E) =
        Except.error (mkResultAccessErr "Tried to access result value that is not ok")) ∧
    (∀ e e' : Option E,
      valueExn (A := A) (err e) = valueExn (A := A) (err e')) ∧
    (mkResultAccessErr "Tried to access result value that is not ok").tag =
      "ResultAccessErr" := by
  refine ⟨fun a fallback => ⟨by simp [valueOr], by simp [valueExn]⟩,
    fun e fallback => ⟨by simp [valueOr], by simp [valueExn]⟩,
    fun e e' => by simp [valueExn], rfl⟩

/-- C5: `ofThrowable` invokes its thunk exactly once and yields
`Ok(returnValue)` on normal return or `Err(caughtError)` on a throw, never
re-raising (it is total into a Result); `ofPromise` invokes its thunk once
and awaits once, resolving to `Ok(value)` on fulfilment or `Err(caughtError)`
on rejection, the rejection absorbed into the Result rather than re-raised. -/
theorem ofThrowable_ofPromise_capture {A E : Type}
    (thunk : Unit → Except (Option E) (Option A)) :
    (ofThrowableTr thunk).2 = 1 ∧
    (ofPromiseTr thunk).2 = (1, 1) ∧
    (∀ v, thunk () = Except.ok v →
      ofThrowableTr thunk = (ok v, 1) ∧ ofPromiseTr thunk = (ok v, 1, 1)) ∧
    (∀ e, thunk () = Except.error e →
      ofThrowableTr thunk = (err e, 1) ∧ ofPromiseTr thunk = (err e, 1, 1)) := by
  refine ⟨?_, ?_, fun v h => ?_, fun e h => ?_⟩
  · cases h : thunk () <;> simp [ofThrowableTr, h]
  · cases h : thunk () <;> simp [ofPromiseTr, h]
  · exact ⟨by simp [ofThrowableTr, h], by simp [ofPromiseTr, h]⟩
  · exact ⟨by simp [ofThrowableTr, h], by simp [ofPromiseTr, h]⟩

/-- Witness for C5: a thunk that returns normally and a thunk that throws,
both at concrete values. -/
theorem ofThrowable_ofPromise_capture_witness :
    ofThrowableTr (fun _ => (Except.ok (some 7) :
      Except (Option String) (Option Nat))) = (ok (some 7), 1) ∧
    ofPromiseTr (fun _ => (Except.error (some "bad") :
      Except (Option String) (Option Nat))) = (err (some "bad"), 1, 1) := by
  constructor
  · exact ((ofThrowable_ofPromise_capture
      (fun _ => (Except.ok (some 7) : Except (Option String) (Option Nat)))).2.2.1
      (some 7) rfl).1
  · exact ((ofThrowable_ofPromise_capture
      (fun _ => (Except.error (some "bad") : Except (Option String) (Option Nat)))).2.2.2
      (some "bad") rfl).2

/-- C6: `result(value)` returns `Ok(value)` exactly when `value` is truthy
and not an `Error` instance; in every other case — absent argument
(`undefined`), falsy values, `Error` instances — it returns `Err` with the
value placed in the error slot. -/
theorem result_truthy_spec :
    ∀ value : Option JSValue,
      (truthy value = true ∧ isErrorInstance value = false →
        result value = ok value) ∧
      (truthy value = false ∨ isErrorInstance value = true →
        result value = err value) := by
  intro value
  constructor
  · rintro ⟨h1, h2⟩
    simp [result, h1, h2]
  · rintro (h | h)
    · simp [result, h]
    · simp [result, h]

/-- Witness for C6: a truthy non-Error value yields `Ok`; `undefined`, `0`
and an `Error` instance yield `Err`. -/
theorem result_truthy_spec_witness :
    result (some (JSValue.numV 5)) = ok (some (JSValue.numV 5)) ∧
    result (some JSValue.undef) = err (some JSValue.undef) ∧
    result (some (JSValue.numV 0)) = err (some (JSValue.numV 0)) ∧
    result (some (JSValue.errObj "boom")) = err (some (JSValue.errObj "boom")) := by
  refine ⟨(result_truthy_spec (some (JSValue.numV 5))).1 ⟨by decide, by decide⟩,
    (result_truthy_spec (some JSValue.undef)).2 (Or.inl (by decide)),
    (result_truthy_spec (some (JSValue.numV 0))).2 (Or.inl (by decide)),
    (result_truthy_spec (some (JSValue.errObj "boom"))).2 (Or.inr (by decide))⟩

/-- C8: for every well-formed Result, `match` invokes exactly one of the two
handlers exactly once — the `Ok` handler iff the Result is `Ok` (on the
wrapped value), the `Err` handler iff it is `Err` (on the wrapped error) —
and returns that handler's result unchanged. -/
theorem match_spec {A E U : Type} (r : ResultS A E)
    (okCase : Option A → U) (errCase : Option E → U) (hwf : WF r) :
    (matchTr r okCase errCase).2.1 + (matchTr r okCase errCase).2.2 = 1 ∧
    ((matchTr r okCase errCase).2.1 = 1 ↔ isOk r = true) ∧
    ((matchTr r okCase errCase).2.2 = 1 ↔ isErr r = true) ∧
    (isOk r = true → matchTr r okCase errCase = (okCase r.value, 1, 0)) ∧
    (isErr r = true → matchTr r okCase errCase = (errCase r.err, 0, 1)) ∧
    matchR r okCase errCase = (matchTr r okCase errCase).1 := by
  rcases hwf with h | h
  · have hok : isOk r = true := by simp [isOk, h]
    have herr : isErr r = false := isErr_eq_false_of_isOk hok
    refine ⟨by simp [matchTr, hok], by simp [matchTr, hok], ?_, ?_, ?_, ?_⟩
    · simp [matchTr, hok, herr]
    · intro _; simp [matchTr, hok]
    · intro hcontra; rw [herr] at hcontra; cases hcontra
    · simp [matchR, matchTr, hok]
  · have herr : isErr r = true := by simp [isErr, h]
    have hok : isOk r = false := isOk_eq_false_of_isErr herr
    refine ⟨by simp [matchTr, hok], ?_, by simp [matchTr, hok, herr], ?_, ?_, ?_⟩
    · simp [matchTr, hok, herr]
    · intro hcontra; rw [hok] at hcontra; cases hcontra
    · intro _; simp [matchTr, hok]
    · simp [matchR, matchTr, hok]

/-- Witness for C8: evaluating `match` on a concrete `Ok`. -/
theorem match_spec_witness :
    matchTr (ok (some 2) : ResultS Nat String)
      (fun v => v.getD 0) (fun _ => 99) = (2, 1, 0) := by
  have h := (match_spec (ok (some 2) : ResultS Nat String)
    (fun v => v.getD 0) (fun _ => 99) (Or.inl (by decide))).2.2.2.1 (by simp)
  simpa using h

/-- C9: when the thunk passed to `ofThrowable` throws a value that is not an
`Error` instance, or the promise in `ofPromise` rejects with such a value,
the returned `Err` wraps that exact value in its `err` slot: the error type
parameter is completely unconstrained at these capture points (here it is
quantified over an arbitrary type, e.g. `String` or `Int`). -/
theorem capture_nonError_value {A E : Type} :
    ∀ e : Option E,
      (ofThrowable (fun _ => (Except.error e : Except (Option E) (Option A)))).err = e ∧
      isErr (ofThrowable (A := A) (fun _ => Except.error e)) = true ∧
      (ofPromise (fun _ => (Except.error e : Except (Option E) (Option A)))).err = e ∧
      isErr (ofPromise (A := A) (fun _ => Except.error e)) = true := by
  intro e
  refine ⟨rfl, ?_, rfl, ?_⟩
  · simp [ofThrowable, ofThrowableTr]
  · simp [ofPromise, ofPromiseTr]

/-- C10: `ok(value)` is `Ok` for every value including `null`; the variant
of a Result is determined solely by its status discriminant, never by the
nullness of `value` or `err`; in particular `ok(null)` is a well-formed `Ok`
whose `value` and `err` fields are both null. -/
theorem ok_null_wellformed {A E : Type} :
    (∀ t : Option A, isOk (ok t : ResultS A E) = true ∧
      isErr (ok t : ResultS A E) = false) ∧
    (∀ r r' : ResultS A E, r.status = r'.status →
      isOk r = isOk r' ∧ isErr r = isErr r') ∧
    ((ok none : ResultS A E).value = none ∧ (ok none : ResultS A E).err = none ∧
      isOk (ok none : ResultS A E) = true ∧ WF (ok none : ResultS A E)) := by
  refine ⟨fun t => ⟨isOk_ok t, isErr_ok t⟩,
    fun r r' h => ⟨by simp [isOk, h], by simp [isErr, h]⟩,
    rfl, rfl, isOk_ok none, Or.inl (by simp)⟩

/-- Witness for C10: two concrete Results with equal status have equal
variants, applied at `ok null` and `ok 5`. -/
theorem ok_null_wellformed_witness :
    isOk (ok (none : Option Nat) : ResultS Nat String) =
      isOk (ok (some 5) : ResultS Nat String) ∧
    isErr (ok (none : Option Nat) : ResultS Nat String) =
      isErr (ok (some 5) : ResultS Nat String) := by
  exact (ok_null_wellformed (A := Nat) (E := String)).2.1
    (ok none) (ok (some 5)) (by simp)

/-- Counterexample for C7: `ok(null)` is constructed by the library's `ok`
constructor, its discriminants disagree as required, yet *neither* of its
`value` / `err` fields is populated — both are null — so "exactly one of
the value/err fields is populated" fails. -/
theorem ctor_discriminant_cex :
    isOk (ok (none : Option Nat) : ResultS Nat Nat) ≠
      isErr (ok (none : Option Nat) : ResultS Nat Nat) ∧
    ¬ exactlyOnePopulated (ok (none : Option Nat) : ResultS Nat Nat) := by
  constructor
  · simp
  · unfold exactlyOnePopulated
    simp

/-- C7 (amended): for every Result constructed by the library's
constructors (`ok`, `err`, `result`, `ofThrowable`, `ofPromise`),
`isOk(r) != isErr(r)` always holds, and *at most* one of the `value` /
`err` fields is populated (an `Ok` has null `err`, an `Err` has null
`value`; `ok(null)` populates neither). -/
theorem ctor_discriminant_amended {A E : Type} :
    (∀ t : Option A, isOk (ok t : ResultS A E) ≠ isErr (ok t : ResultS A E) ∧
      atMostOnePopulated (ok t : ResultS A E)) ∧
    (∀ e : Option E, isOk (err e : ResultS A E) ≠ isErr (err e : ResultS A E) ∧
      atMostOnePopulated (err e : ResultS A E)) ∧
    (∀ v : Option JSValue, isOk (result v) ≠ isErr (result v) ∧
      atMostOnePopulated (result v)) ∧
    (∀ thunk : Unit → Except (Option E) (Option A),
      (isOk (ofThrowable thunk) ≠ isErr (ofThrowable thunk) ∧
        atMostOnePopulated (ofThrowable thunk)) ∧
      (isOk (ofPromise thunk) ≠ isErr (ofPromise thunk) ∧
        atMostOnePopulated (ofPromise thunk))) := by
  refine ⟨fun t => ⟨by simp, Or.inr rfl⟩, fun e => ⟨by simp, Or.inl rfl⟩,
    fun v => ?_, fun thunk => ⟨?_, ?_⟩⟩
  · by_cases h : (truthy v && !isErrorInstance v) = true
    · have : result v = ok v := by simp [result, h]
      rw [this]
      exact ⟨by simp, Or.inr rfl⟩
    · have : result v = err v := by simp [result, h]
      rw [this]
      exact ⟨by simp, Or.inl rfl⟩
  · cases h : thunk () with
    | ok v =>
      have : ofThrowable thunk = ok v := by simp [ofThrowable, ofThrowableTr, h]
      rw [this]
      exact ⟨by simp, Or.inr rfl⟩
    | error e =>
      have : ofThrowable thunk = err e := by simp [ofThrowable, ofThrowableTr, h]
      rw [this]
      exact ⟨by simp, Or.inl rfl⟩
  · cases h : thunk () with
    | ok v =>
      have : ofPromise thunk = ok v := by simp [ofPromise, ofPromiseTr, h]
      rw [this]
      exact ⟨by simp, Or.inr rfl⟩
    | error e =>
      have : ofPromise thunk = err e := by simp [ofPromise, ofPromiseTr, h]
      rw [this]
      exact ⟨by simp, Or.inl rfl⟩

/-! ### Lemmas about `combine` -/

lemma setAll_cons_succ {A : Type} (v : Option A) (values : List (Option A))
    (i : Nat) (l : List (Option A)) :
    setAll (v :: values) (i + 1) l = v :: setAll values i l := by
  induction l generalizing v values i with
  | nil => rfl
  | cons x xs ih =>
    show setAll ((v :: values).set (i + 1) x) (i + 2) xs =
      v :: setAll (values.set i x) (i + 1) xs
    rw [List.set_cons_succ]
    exact ih v (values.set i x) (i + 1)

lemma setAll_replicate {A : Type} :
    ∀ l : List (Option A), setAll (List.replicate l.length none) 0 l = l := by
  intro l
  induction l with
  | nil => rfl
  | cons x xs ih =>
    show setAll ((List.replicate (xs.length + 1) none).set 0 x) 1 xs = x :: xs
    rw [List.replicate_succ, List.set_cons_zero,
      show (1 : Nat) = 0 + 1 from rfl, setAll_cons_succ, ih]

lemma combineLoop_allOk {A E : Type} :
    ∀ (rs : List (ResultS A E)) (values : List (Option A)) (i : Nat),
      (∀ r ∈ rs, isOk r = true) →
      combineLoop values i rs = ok (some (setAll values i (rs.map fun r => r.value))) := by
  intro rs
  induction rs with
  | nil => intro values i _; rfl
  | cons r rest ih =>
    intro values i h
    have hr : isOk r = true := h r (List.mem_cons_self r rest)
    have hrest : ∀ x ∈ rest, isOk x = true :=
      fun x hx => h x (List.mem_cons_of_mem r hx)
    simp only [combineLoop, hr, if_true]
    rw [ih (values.set i r.value) (i + 1) hrest]
    rfl

lemma combineLoop_firstErr {A E : Type} :
    ∀ (pre : List (ResultS A E)) (e : ResultS A E) (rest : List (ResultS A E))
      (values : List (Option A)) (i : Nat),
      (∀ r ∈ pre, isOk r = true) → isErr e = true →
      combineLoop values i (pre ++ e :: rest) =
        { status := e.status, value := none, err := e.err } := by
  intro pre
  induction pre with
  | nil =>
    intro e rest values i _ he
    simp only [List.nil_append, combineLoop, isOk_eq_false_of_isErr he]
    rfl
  | cons r pre' ih =>
    intro e rest values i h he
    have hr : isOk r = true := h r (List.mem_cons_self r pre')
    simp only [List.cons_append, combineLoop, hr, if_true]
    exact ih e rest (values.set i r.value) (i + 1)
      (fun x hx => h x (List.mem_cons_of_mem r hx)) he

/-- C1: `combine` evaluates the sequence in order: the empty sequence
yields `Ok([])`; if every element is `Ok`, the result is `Ok` of the value
fields in input order; if some element is `Err` (here: the first `Err`,
preceded by `Ok`s only), `combine` returns that `Err` and the result is
independent of everything after it — no subsequent element is examined. -/
theorem combine_spec {A E : Type} :
    (combine ([] : List (ResultS A E)) = ok (some [])) ∧
    (∀ rs : List (ResultS A E), (∀ r ∈ rs, isOk r = true) →
      combine rs = ok (some (rs.map fun r => r.value))) ∧
    (∀ (pre : List (ResultS A E)) (e : ResultS A E) (rest : List (ResultS A E)),
      (∀ r ∈ pre, isOk r = true) → isErr e = true →
      combine (pre ++ e :: rest) = err e.err ∧
      ∀ rest' : List (ResultS A E),
        combine (pre ++ e :: rest) = combine (pre ++ e :: rest')) := by
  refine ⟨rfl, fun rs h => ?_, fun pre e rest hpre he => ?_⟩
  · unfold combine
    rw [combineLoop_allOk rs _ 0 h]
    have hlen : rs.length = (rs.map fun r => r.value).length :=
      (List.length_map rs fun r => r.value).symm
    rw [hlen, setAll_replicate]
  · have hfirst : ∀ rest'' : List (ResultS A E),
        combine (pre ++ e :: rest'') =
          { status := e.status, value := none, err := e.err } :=
      fun rest'' => combineLoop_firstErr pre e rest'' _ 0 hpre he
    constructor
    · rw [hfirst rest]
      simp [err, status_eq_of_isErr he]
    · intro rest'
      rw [hfirst rest, hfirst rest']

/-- Witness for C1: a concrete all-`Ok` sequence collects its values in
order, and a sequence with an `Err` in the middle returns that `Err`
regardless of what follows it. -/
theorem combine_spec_witness :
    combine ([ok (some 1), ok (some 2), ok (some 3)] :
        List (ResultS Nat String)) = ok (some [some 1, some 2, some 3]) ∧
    combine ([ok (some 1)] ++ err (some "bad") :: [ok (some 9)] :
        List (ResultS Nat String)) = err (some "bad") ∧
    combine ([ok (some 1)] ++ err (some "bad") :: [ok (some 9)] :
        List (ResultS Nat String)) =
      combine ([ok (some 1)] ++ err (some "bad") :: [err (some "other")] :
        List (ResultS Nat String)) := by
  have h1 := (combine_spec (A := Nat) (E := String)).2.1
    [ok (some 1), ok (some 2), ok (some 3)] (by intro r hr; fin_cases hr <;> simp)
  have h2 := (combine_spec (A := Nat) (E := String)).2.2
    [ok (some 1)] (err (some "bad")) [ok (some 9)]
    (by intro r hr; fin_cases hr; simp) (by simp)
  exact ⟨by simpa using h1, by simpa using h2.1, h2.2 [err (some "other")]⟩

end Resulta
